import Mathlib

/-!
# Verification of the Botarr web client's state-synchronization layer

A shallow embedding of the client code (App, SearchResults, SettingsTab,
HistoryTab and the AutojoinInput helper) into Lean 4.

JavaScript strings are modelled as lists of UTF-16 code units (`JStr`);
JavaScript numbers that the code treats as integers are modelled as `Nat`
or `Int`; `fetch` outcomes and `JSON.parse` outcomes are explicit inputs
to the embedded handlers; React state updates become explicit state
passing on a record type per component.
-/

namespace Botarr

/-- A JavaScript string: a list of UTF-16 code units. -/
abbrev JStr := List Nat

/-- Convenience injection of a Lean string literal into `JStr`. -/
def ofStr (s : String) : JStr := s.data.map Char.toNat

/-- `String.prototype.toLowerCase` on a single ASCII code unit. -/
def jsCharToLower (c : Nat) : Nat :=
  if 65 ≤ c ∧ c ≤ 90 then c + 32 else c

/-- `s.toLowerCase()` (ASCII range; the code only compares server names). -/
def jsToLower (s : JStr) : JStr := s.map jsCharToLower

/-- The code units of the literal `"irc."`. -/
def ircPre : JStr := ofStr "irc."

/-- `s.startsWith(p)`, i.e. whether `p` is an initial segment of `s`. -/
def startsWith (p s : JStr) : Bool := s.take p.length == p

/-- `norm.replace(/^irc\./, '')`: strip one leading `"irc."` if present. -/
def stripIrcPre (s : JStr) : JStr :=
  if startsWith ircPre s then s.drop 4 else s

/-- `normalizeServer` from `SearchResults.tsx`: lower-case, then strip a
single literal leading `irc.`. -/
def normalizeServer (s : JStr) : JStr := stripIrcPre (jsToLower s)

example : normalizeServer (ofStr "IRC.Foo.Net") = ofStr "foo.net" := by decide
example : normalizeServer (ofStr "irc.irc.x") = ofStr "irc.x" := by decide
example : normalizeServer (normalizeServer (ofStr "irc.irc.x")) = ofStr "x" := by decide

/-! ## JS whitespace, `trim`, and the autojoin blur-commit parser -/

/-- The code points `String.prototype.trim` treats as whitespace. -/
def jsWhitespace : List Nat :=
  [9, 10, 11, 12, 13, 32, 160, 5760, 8192, 8193, 8194, 8195, 8196, 8197,
   8198, 8199, 8200, 8201, 8202, 8232, 8233, 8239, 8287, 12288, 65279]

def isJsWs (c : Nat) : Bool := jsWhitespace.contains c

/-- `s.trim()`: drop leading and trailing whitespace. -/
def jsTrim (s : JStr) : JStr :=
  ((s.dropWhile isJsWs).reverse.dropWhile isJsWs).reverse

/-- `s.split(',')`: split at every comma (code unit 44); adjacent commas
produce empty segments, and the empty string yields `[[]]`. -/
def splitOnComma : JStr → List JStr
  | [] => [[]]
  | c :: rest =>
    if c = 44 then [] :: splitOnComma rest
    else
      match splitOnComma rest with
      | [] => [[c]]
      | h :: t => (c :: h) :: t

/-- `AutojoinInput.handleBlur` from `SettingsTab`: split the draft on
commas, trim each segment, and keep only the nonempty segments. -/
def parseAutojoin (draft : JStr) : List JStr :=
  ((splitOnComma draft).map jsTrim).filter (fun c => decide (0 < c.length))

example : parseAutojoin (ofStr "#a, #b ,  #c") = [ofStr "#a", ofStr "#b", ofStr "#c"] := by
  decide

/-! ## Search results: data model and the server facet -/

/-- `XdccSearchResult` from `types.ts`. -/
structure XdccSearchResult where
  server : JStr
  bot : JStr
  pack_number : Nat
  file_size : Nat
  file_name : JStr
  downloads : Nat
  channel : JStr
deriving DecidableEq

/-- One step of the `results.forEach` loop building the `seen` map in the
`servers` memo: insert `(normalized, raw)` only if the normalized key is
absent (first occurrence wins). -/
def insertSeen (seen : List (JStr × JStr)) (r : XdccSearchResult) :
    List (JStr × JStr) :=
  if seen.any (fun p => p.1 == normalizeServer r.server) then seen
  else seen ++ [(normalizeServer r.server, r.server)]

/-- The `seen` map after the whole loop, as insertion-ordered entries. -/
def buildSeen (results : List XdccSearchResult) : List (JStr × JStr) :=
  results.foldl insertSeen []

/-- Default `Array.prototype.sort` comparison on strings: lexicographic
on UTF-16 code units. -/
def lexLeB : JStr → JStr → Bool
  | [], _ => true
  | _ :: _, [] => false
  | a :: as, b :: bs => if a < b then true else if a == b then lexLeB as bs else false

/-- The `servers` facet `useMemo`: the values of the `seen` map
(first-seen raw strings), sorted. -/
def servers (results : List XdccSearchResult) : List JStr :=
  List.insertionSort (fun a b => lexLeB a b = true) ((buildSeen results).map Prod.snd)

/-- The value the `seen` map associates to key `k`. -/
def seenVal (seen : List (JStr × JStr)) (k : JStr) : Option JStr :=
  (seen.find? (fun p => p.1 == k)).map Prod.snd

/-- The raw server string of the first result normalizing to `k`. -/
def firstRawFor (results : List XdccSearchResult) (k : JStr) : Option JStr :=
  (results.find? (fun r => normalizeServer r.server == k)).map XdccSearchResult.server

/-! ## Transfers, bot stats, fetch outcomes, and the App component -/

/-- `TransferStatus` from `types.ts`. -/
inductive TransferStatus where
  | pending | connecting | joining | requesting | downloading
  | completed | failed | cancelled
deriving DecidableEq

/-- `TransferPriority` from `types.ts`. -/
inductive TransferPriority where
  | low | normal | high | urgent
deriving DecidableEq

/-- The `url` component of `XdccTransfer`. -/
structure TransferUrl where
  server : JStr
  channel : JStr
  bot : JStr
  pack : Nat
deriving DecidableEq

/-- `XdccTransfer` from `types.ts`; `Option` models the serde
`null`-or-value fields. -/
structure XdccTransfer where
  id : JStr
  url : TransferUrl
  status : TransferStatus
  file_name : Option JStr
  file_size : Option Nat
  downloaded : Nat
  speed : Nat
  progress : Nat
  error : Option JStr
  created_at : Nat
  updated_at : Nat
  priority : TransferPriority
  retry_count : Nat
  max_retries : Nat
  queue_position : Option Nat
deriving DecidableEq

/-- `BotStats` from `types.ts`. The two per-bot metrics that are
fractional at runtime are modelled as `Nat`; the client only stores and
sums them. -/
structure BotStats where
  bot_name : JStr
  network : JStr
  total_downloads : Nat
  successful_downloads : Nat
  failed_downloads : Nat
  total_bytes : Nat
  average_speed : Nat
  reliability_score : Nat
deriving DecidableEq

/-- The toast kind of `useToast`. -/
inductive ToastType where
  | success | error
deriving DecidableEq

/-- The state held by `useToast`. -/
structure ToastState where
  message : JStr
  type : ToastType
  visible : Bool
deriving DecidableEq

/-- `showToast`'s new toast value. -/
def mkToast (msg : JStr) (t : ToastType) : ToastState :=
  { message := msg, type := t, visible := true }

/-- The four views of the root coordinator. -/
inductive Tab where
  | search | activities | history | settings
deriving DecidableEq

/-- The state held by the `App` component. `searchResults` is an
`Option` because the success path of `handleSearch` stores
`data.results` verbatim, which may be absent (`undefined`); the initial
React state is `some []`. -/
structure AppState where
  activeTab : Tab
  searchResults : Option (List XdccSearchResult)
  transfers : List XdccTransfer
  stats : List BotStats
  isLoading : Bool
  queueSize : Nat
  toast : ToastState
deriving DecidableEq

/-- The outcome of one `fetch(...)` call as observed by the client:
either the promise rejects (network error), or a response arrives with
an HTTP status and a body that `res.json()` either parses (`some`) or
fails to parse (`none`). -/
inductive FetchOutcome (α : Type) where
  | networkError
  | response (status : Nat) (body : Option α)
deriving DecidableEq

/-- `await fetch(...).then(r => r.json())`: `none` when the chain throws
(network error or non-JSON body); the HTTP status is never consulted. -/
def awaitJson : FetchOutcome α → Option α
  | .networkError => none
  | .response _ body => body

/-- `res.ok`: status in the 2xx range. -/
def statusOk (status : Nat) : Bool := decide (200 ≤ status) && decide (status < 300)

/-- Body shape of `GET /api/bots/stats`. -/
structure StatsBody where
  bots : Option (List BotStats)
deriving DecidableEq

/-- Body shape of `GET /api/queue`. -/
structure QueueBody where
  queue_size : Option Nat
deriving DecidableEq

/-- Body shape of `GET /api/transfers`. -/
structure TransfersBody where
  transfers : Option (List XdccTransfer)
deriving DecidableEq

/-- Body shape of `GET /api/search`. -/
structure SearchBody where
  results : Option (List XdccSearchResult)
deriving DecidableEq

/-- `fetchUpdates` from `App.tsx`: three independently guarded fetches.
A fetch whose `await`-chain throws is caught and leaves its slice
untouched; a parsed JSON body (whatever the HTTP status) replaces the
slice, with `|| []` / `|| 0` defaults for missing fields. Every inner
failure is caught, so the cycle itself never throws: the function is
total. -/
def fetchUpdates (st : AppState) (so : FetchOutcome StatsBody)
    (qo : FetchOutcome QueueBody) (tro : FetchOutcome TransfersBody) : AppState :=
  let st1 := match awaitJson so with
    | none => st
    | some b => { st with stats := b.bots.getD [] }
  let st2 := match awaitJson qo with
    | none => st1
    | some b => { st1 with queueSize := b.queue_size.getD 0 }
  match awaitJson tro with
  | none => st2
  | some b => { st2 with transfers := b.transfers.getD [] }

/-! ## Configuration document -/

/-- `NetworkConfig` from `types.ts`. -/
structure NetworkConfig where
  host : JStr
  port : Nat
  ssl : Bool
  autojoin_channels : List JStr
  join_delay_secs : Nat
deriving DecidableEq

/-- `AppConfig` from `types.ts`. The `networks` record is modelled as an
insertion-ordered association list with unique keys. -/
structure AppConfig where
  use_ssl : Bool
  connect_timeout : Nat
  general_timeout : Nat
  proxy_enabled : Bool
  proxy_url : JStr
  nickname : JStr
  username : JStr
  realname : JStr
  max_retries : Nat
  retry_delay : Nat
  queue_limit : Nat
  passive_dcc : Bool
  dcc_port_min : Nat
  dcc_port_max : Nat
  resume_enabled : Bool
  enabled_providers : List JStr
  results_per_page : Nat
  search_timeout : Nat
  networks : List (JStr × NetworkConfig)
deriving DecidableEq

/-! ## The HTTP calls a handler can issue, and a common handler shape -/

/-- The network calls the embedded handlers can issue, structured by
endpoint; path parameters carry the raw (pre-URL-encoding) values. -/
inductive ApiCall where
  | searchGet (query : JStr) (providers : List JStr)
  | downloadPost (url : JStr)
  | transferDelete (id : JStr)
  | transferRetryPost (id : JStr)
  | settingsPut (cfg : AppConfig)
  | networkPut (name : JStr) (cfg : NetworkConfig)
  | networkDelete (name : JStr)
  | searchHistoryDelete (id : Int)
  | historyDelete (id : JStr) (deleteFile : Bool)
deriving DecidableEq

/-- The observable result of running one handler: the final component
state, the HTTP calls it issued, and whether an exception escaped the
handler (`threw = true` models an unhandled promise rejection). -/
structure HandlerResult (σ : Type) where
  state : σ
  calls : List ApiCall
  threw : Bool
deriving DecidableEq

/-! ## The App component's handlers -/

/-- `handleSearch` from `App.tsx`: set the loading flag, fetch, on
success store `data.results` verbatim; on a thrown failure show the
failure toast and leave the results untouched; the `finally` clears the
loading flag on every path. -/
def handleSearch (st : AppState) (query : JStr) (providers : List JStr)
    (o : FetchOutcome SearchBody) : HandlerResult AppState :=
  let st1 := { st with isLoading := true }
  let calls := [ApiCall.searchGet query providers]
  match awaitJson o with
  | some d => ⟨{ st1 with searchResults := d.results, isLoading := false }, calls, false⟩
  | none =>
    ⟨{ st1 with toast := mkToast (ofStr "Search failed") .error, isLoading := false },
      calls, false⟩

/-- Decimal digits of a number, as code units. -/
def natDigits (n : Nat) : JStr := (Nat.toDigits 10 n).map Char.toNat

/-- The protocol URL `handleDownload` builds from a search result. -/
def ircUrlOf (r : XdccSearchResult) : JStr :=
  ofStr "irc://" ++ r.server ++ ofStr "/" ++ r.channel ++ ofStr "/" ++ r.bot
    ++ ofStr "/" ++ natDigits r.pack_number

/-- `handleDownload` from `App.tsx`: POST the protocol URL; the
try/catch swallows a rejected fetch behind a failure toast, a resolved
response (any status) shows the success toast. (The out-of-cycle
`fetchUpdates()` it then fires is a separate poll cycle.) -/
def handleDownload (st : AppState) (r : XdccSearchResult) (o : FetchOutcome Unit) :
    HandlerResult AppState :=
  let calls := [ApiCall.downloadPost (ircUrlOf r)]
  match o with
  | .networkError =>
    ⟨{ st with toast := mkToast (ofStr "Failed to start download") .error }, calls, false⟩
  | .response _ _ =>
    ⟨{ st with toast := mkToast (ofStr "Download started") .success }, calls, false⟩

/-- `handleCancel` from `App.tsx`: the `await fetch` is not wrapped in
any try/catch, so a rejected fetch propagates out of the handler and no
toast is shown; any resolved response (any status) reaches the success
toast. -/
def handleCancel (st : AppState) (id : JStr) (o : FetchOutcome Unit) :
    HandlerResult AppState :=
  let calls := [ApiCall.transferDelete id]
  match o with
  | .networkError => ⟨st, calls, true⟩
  | .response _ _ =>
    ⟨{ st with toast := mkToast (ofStr "Transfer cancelled") .success }, calls, false⟩

/-- `handleRetry` from `App.tsx`: same unguarded shape as
`handleCancel`. -/
def handleRetry (st : AppState) (id : JStr) (o : FetchOutcome Unit) :
    HandlerResult AppState :=
  let calls := [ApiCall.transferRetryPost id]
  match o with
  | .networkError => ⟨st, calls, true⟩
  | .response _ _ =>
    ⟨{ st with toast := mkToast (ofStr "Retrying transfer...") .success }, calls, false⟩

/-! ## The SettingsTab component -/

/-- The state held by the `SettingsTab` component. -/
structure SettingsState where
  settings : Option AppConfig
  loading : Bool
  saving : Bool
  newNetworkName : JStr
  toast : ToastState
deriving DecidableEq

/-- JS object spread `{...m, [k]: v}` on the networks record: replace in
place when the key is present (insertion order kept), otherwise
append. -/
def setKey (m : List (JStr × NetworkConfig)) (k : JStr) (v : NetworkConfig) :
    List (JStr × NetworkConfig) :=
  if m.any (fun p => p.1 == k) then m.map (fun p => if p.1 == k then (k, v) else p)
  else m ++ [(k, v)]

/-- `delete copy[k]` on a spread copy of the networks record. -/
def removeKey (m : List (JStr × NetworkConfig)) (k : JStr) :
    List (JStr × NetworkConfig) :=
  m.filter (fun p => !(p.1 == k))

/-- `m[k]` on the networks record. -/
def lookupKey (m : List (JStr × NetworkConfig)) (k : JStr) : Option NetworkConfig :=
  (m.find? (fun p => p.1 == k)).map Prod.snd

/-- One scalar-field edit, as passed to `updateSetting` at its call
sites (every key of `AppConfig` except `networks`). -/
inductive SettingUpdate where
  | use_ssl (v : Bool)
  | connect_timeout (v : Nat)
  | general_timeout (v : Nat)
  | proxy_enabled (v : Bool)
  | proxy_url (v : JStr)
  | nickname (v : JStr)
  | username (v : JStr)
  | realname (v : JStr)
  | max_retries (v : Nat)
  | retry_delay (v : Nat)
  | queue_limit (v : Nat)
  | passive_dcc (v : Bool)
  | dcc_port_min (v : Nat)
  | dcc_port_max (v : Nat)
  | resume_enabled (v : Bool)
  | enabled_providers (v : List JStr)
  | results_per_page (v : Nat)
  | search_timeout (v : Nat)
deriving DecidableEq

/-- The scalar keys of `AppConfig`. -/
inductive SettingKey where
  | use_ssl | connect_timeout | general_timeout | proxy_enabled | proxy_url
  | nickname | username | realname | max_retries | retry_delay | queue_limit
  | passive_dcc | dcc_port_min | dcc_port_max | resume_enabled
  | enabled_providers | results_per_page | search_timeout
deriving DecidableEq

/-- The key an update addresses. -/
def keyOf : SettingUpdate → SettingKey
  | .use_ssl _ => .use_ssl
  | .connect_timeout _ => .connect_timeout
  | .general_timeout _ => .general_timeout
  | .proxy_enabled _ => .proxy_enabled
  | .proxy_url _ => .proxy_url
  | .nickname _ => .nickname
  | .username _ => .username
  | .realname _ => .realname
  | .max_retries _ => .max_retries
  | .retry_delay _ => .retry_delay
  | .queue_limit _ => .queue_limit
  | .passive_dcc _ => .passive_dcc
  | .dcc_port_min _ => .dcc_port_min
  | .dcc_port_max _ => .dcc_port_max
  | .resume_enabled _ => .resume_enabled
  | .enabled_providers _ => .enabled_providers
  | .results_per_page _ => .results_per_page
  | .search_timeout _ => .search_timeout

/-- `updateSetting` from `SettingsTab`: `{...settings, [key]: value}` on
the in-memory document. -/
def updateSetting (c : AppConfig) : SettingUpdate → AppConfig
  | .use_ssl v => { c with use_ssl := v }
  | .connect_timeout v => { c with connect_timeout := v }
  | .general_timeout v => { c with general_timeout := v }
  | .proxy_enabled v => { c with proxy_enabled := v }
  | .proxy_url v => { c with proxy_url := v }
  | .nickname v => { c with nickname := v }
  | .username v => { c with username := v }
  | .realname v => { c with realname := v }
  | .max_retries v => { c with max_retries := v }
  | .retry_delay v => { c with retry_delay := v }
  | .queue_limit v => { c with queue_limit := v }
  | .passive_dcc v => { c with passive_dcc := v }
  | .dcc_port_min v => { c with dcc_port_min := v }
  | .dcc_port_max v => { c with dcc_port_max := v }
  | .resume_enabled v => { c with resume_enabled := v }
  | .enabled_providers v => { c with enabled_providers := v }
  | .results_per_page v => { c with results_per_page := v }
  | .search_timeout v => { c with search_timeout := v }

/-- Whether two configuration documents agree on the scalar field named
by `k`. -/
def fieldEq (k : SettingKey) (a b : AppConfig) : Prop :=
  match k with
  | .use_ssl => a.use_ssl = b.use_ssl
  | .connect_timeout => a.connect_timeout = b.connect_timeout
  | .general_timeout => a.general_timeout = b.general_timeout
  | .proxy_enabled => a.proxy_enabled = b.proxy_enabled
  | .proxy_url => a.proxy_url = b.proxy_url
  | .nickname => a.nickname = b.nickname
  | .username => a.username = b.username
  | .realname => a.realname = b.realname
  | .max_retries => a.max_retries = b.max_retries
  | .retry_delay => a.retry_delay = b.retry_delay
  | .queue_limit => a.queue_limit = b.queue_limit
  | .passive_dcc => a.passive_dcc = b.passive_dcc
  | .dcc_port_min => a.dcc_port_min = b.dcc_port_min
  | .dcc_port_max => a.dcc_port_max = b.dcc_port_max
  | .resume_enabled => a.resume_enabled = b.resume_enabled
  | .enabled_providers => a.enabled_providers = b.enabled_providers
  | .results_per_page => a.results_per_page = b.results_per_page
  | .search_timeout => a.search_timeout = b.search_timeout

/-- Whether the document `c'` holds the value carried by the update `u`
in the field `u` names. -/
def updatedFieldSet (c' : AppConfig) : SettingUpdate → Prop
  | .use_ssl v => c'.use_ssl = v
  | .connect_timeout v => c'.connect_timeout = v
  | .general_timeout v => c'.general_timeout = v
  | .proxy_enabled v => c'.proxy_enabled = v
  | .proxy_url v => c'.proxy_url = v
  | .nickname v => c'.nickname = v
  | .username v => c'.username = v
  | .realname v => c'.realname = v
  | .max_retries v => c'.max_retries = v
  | .retry_delay v => c'.retry_delay = v
  | .queue_limit v => c'.queue_limit = v
  | .passive_dcc v => c'.passive_dcc = v
  | .dcc_port_min v => c'.dcc_port_min = v
  | .dcc_port_max v => c'.dcc_port_max = v
  | .resume_enabled v => c'.resume_enabled = v
  | .enabled_providers v => c'.enabled_providers = v
  | .results_per_page v => c'.results_per_page = v
  | .search_timeout v => c'.search_timeout = v

/-- The `updateSetting` action as run by the component: a pure rewrite
of the in-memory document (no-op when no document is loaded), issuing no
network call. -/
def updateSettingAction (st : SettingsState) (u : SettingUpdate) :
    HandlerResult SettingsState :=
  match st.settings with
  | none => ⟨st, [], false⟩
  | some cfg => ⟨{ st with settings := some (updateSetting cfg u) }, [], false⟩

/-- `saveSettings` from `SettingsTab`: PUT the whole working document;
`res.ok` decides between the success and failure toasts, a rejected
fetch is caught behind the failure toast, and the `finally` clears the
saving flag on every path. -/
def saveSettings (st : SettingsState) (o : FetchOutcome Unit) :
    HandlerResult SettingsState :=
  match st.settings with
  | none => ⟨st, [], false⟩
  | some cfg =>
    let st1 := { st with saving := true }
    let calls := [ApiCall.settingsPut cfg]
    match o with
    | .networkError =>
      ⟨{ st1 with toast := mkToast (ofStr "Failed to save settings") .error,
                  saving := false }, calls, false⟩
    | .response status _ =>
      if statusOk status then
        ⟨{ st1 with toast := mkToast (ofStr "Settings saved!") .success,
                    saving := false }, calls, false⟩
      else
        ⟨{ st1 with toast := mkToast (ofStr "Failed to save settings") .error,
                    saving := false }, calls, false⟩

/-- The network definition `addNetwork` synthesizes for a new name. -/
def defaultNetworkFor (name : JStr) : NetworkConfig :=
  { host := ofStr "irc." ++ jsToLower name ++ ofStr ".net"
    port := 6697
    ssl := true
    autojoin_channels := []
    join_delay_secs := 6 }

/-- `addNetwork` from `SettingsTab`: guarded on a nonempty trimmed name
and a loaded document; PUTs the new definition keyed by the raw name,
and on a resolved fetch also inserts it into the in-memory document,
clears the name field and shows the success toast; a rejected fetch is
caught behind the failure toast. -/
def addNetwork (st : SettingsState) (o : FetchOutcome Unit) :
    HandlerResult SettingsState :=
  if jsTrim st.newNetworkName = [] then ⟨st, [], false⟩
  else
    match st.settings with
    | none => ⟨st, [], false⟩
    | some cfg =>
      let network := defaultNetworkFor st.newNetworkName
      let calls := [ApiCall.networkPut st.newNetworkName network]
      match o with
      | .networkError =>
        ⟨{ st with toast := mkToast (ofStr "Failed to add network") .error }, calls, false⟩
      | .response _ _ =>
        ⟨{ st with
            settings := some { cfg with networks := setKey cfg.networks st.newNetworkName network }
            newNetworkName := []
            toast := mkToast (ofStr "Network added") .success }, calls, false⟩

/-- `deleteNetwork` from `SettingsTab`: DELETE keyed by name; on a
resolved fetch remove the entry from the in-memory document and show the
success toast; a rejected fetch is caught behind the failure toast. -/
def deleteNetwork (st : SettingsState) (name : JStr) (o : FetchOutcome Unit) :
    HandlerResult SettingsState :=
  match st.settings with
  | none => ⟨st, [], false⟩
  | some cfg =>
    let calls := [ApiCall.networkDelete name]
    match o with
    | .networkError =>
      ⟨{ st with toast := mkToast (ofStr "Failed to delete network") .error }, calls, false⟩
    | .response _ _ =>
      ⟨{ st with settings := some { cfg with networks := removeKey cfg.networks name },
                 toast := mkToast (ofStr "Network deleted") .success }, calls, false⟩

/-- One field edit of a network definition. -/
inductive NetworkFieldUpdate where
  | host (v : JStr)
  | port (v : Nat)
  | ssl (v : Bool)
  | autojoin_channels (v : List JStr)
  | join_delay_secs (v : Nat)
deriving DecidableEq

/-- `{...nc, [field]: v}` on one network definition. -/
def setNetworkField (nc : NetworkConfig) : NetworkFieldUpdate → NetworkConfig
  | .host v => { nc with host := v }
  | .port v => { nc with port := v }
  | .ssl v => { nc with ssl := v }
  | .autojoin_channels v => { nc with autojoin_channels := v }
  | .join_delay_secs v => { nc with join_delay_secs := v }

/-- Stands for JS `{...undefined, [field]: v}` when `updateNetwork` is
called for an absent name: the spread contributes nothing, so the absent
fields are modelled by zero values. (The component only calls
`updateNetwork` for names rendered from the map, so this branch is never
taken at runtime.) -/
def spreadOfAbsent : NetworkConfig :=
  { host := [], port := 0, ssl := false, autojoin_channels := [], join_delay_secs := 0 }

/-- `updateNetwork` from `SettingsTab`: a purely in-memory rewrite of
one network definition; no network call is issued. -/
def updateNetwork (st : SettingsState) (name : JStr) (u : NetworkFieldUpdate) :
    HandlerResult SettingsState :=
  match st.settings with
  | none => ⟨st, [], false⟩
  | some cfg =>
    let old := (lookupKey cfg.networks name).getD spreadOfAbsent
    let cfg' := { cfg with networks := setKey cfg.networks name (setNetworkField old u) }
    ⟨{ st with settings := some cfg' }, [], false⟩

/-! ## The HistoryTab component -/

/-- `SearchHistoryItem` from `HistoryTab.tsx`. -/
structure SearchHistoryItem where
  id : Int
  query : JStr
  results_count : Int
  results_json : Option JStr
  searched_at : JStr
deriving DecidableEq

/-- `DownloadHistoryItem` from `HistoryTab.tsx`. -/
structure DownloadHistoryItem where
  id : JStr
  file_name : Option JStr
  size : Option Nat
  network : JStr
  bot : JStr
  status : JStr
  completed_at : JStr
deriving DecidableEq

/-- The state held by the `HistoryTab` component. The two `Set`s of
selected ids are modelled as duplicate-free lists. Totals are `Int`
because the optimistic decrements can drive a JS number below zero. -/
structure HistState where
  searches : List SearchHistoryItem
  searchPage : Int
  searchTotalPages : Int
  searchTotal : Int
  selectedSearches : List Int
  expandedSearch : Option Int
  downloads : List DownloadHistoryItem
  downloadPage : Int
  downloadTotalPages : Int
  downloadTotal : Int
  selectedDownloads : List JStr
  loading : Bool
  toast : ToastState
deriving DecidableEq

/-- Body shape of `GET /api/history`: either the paginated shape
(`items`/`total`/`total_pages`) or the legacy flat shape
(`history`/`count`); absent fields are `none`. -/
structure DownloadHistoryBody where
  items : Option (List DownloadHistoryItem)
  total : Option Int
  total_pages : Option Int
  history : Option (List DownloadHistoryItem)
  count : Option Int
deriving DecidableEq

/-- JS `a || b` on an optional number: `0`, like a missing field, falls
through to the default. -/
def jsOrInt (v : Option Int) (dflt : Int) : Int :=
  match v with
  | some n => if n = 0 then dflt else n
  | none => dflt

/-- `fetchDownloadHistory` from `HistoryTab.tsx`: set loading, fetch; a
parsed body with an `items` field is the paginated shape, else a
`history` field is the legacy flat shape, else nothing is stored; a
thrown fetch is caught; loading is cleared at the end on every path.
The selection sets are never touched. -/
def fetchDownloadHistory (st : HistState) (o : FetchOutcome DownloadHistoryBody) :
    HistState :=
  let st1 := { st with loading := true }
  let st2 := match awaitJson o with
    | none => st1
    | some d =>
      match d.items with
      | some items =>
        { st1 with downloads := items
                   downloadTotalPages := jsOrInt d.total_pages 1
                   downloadTotal := jsOrInt d.total (items.length : Int) }
      | none =>
        match d.history with
        | some hist =>
          { st1 with downloads := hist
                     downloadTotalPages := 1
                     downloadTotal := jsOrInt d.count (hist.length : Int) }
        | none => st1
  { st2 with loading := false }

/-- `handleDeleteSearch` from `HistoryTab.tsx`: DELETE one record; on a
resolved fetch (any status) optimistically drop the row and decrement
the total; a rejected fetch is caught and only logged — no toast. -/
def handleDeleteSearch (st : HistState) (id : Int) (o : FetchOutcome Unit) :
    HandlerResult HistState :=
  let calls := [ApiCall.searchHistoryDelete id]
  match o with
  | .networkError => ⟨st, calls, false⟩
  | .response _ _ =>
    ⟨{ st with searches := st.searches.filter (fun s => !(s.id == id))
               searchTotal := st.searchTotal - 1 }, calls, false⟩

/-- `handleDeleteDownload` from `HistoryTab.tsx`: DELETE one record with
the `delete_file` flag; on a resolved fetch optimistically drop the row
and decrement the total; a rejected fetch is caught and only logged —
no toast. -/
def handleDeleteDownload (st : HistState) (id : JStr) (deleteFile : Bool)
    (o : FetchOutcome Unit) : HandlerResult HistState :=
  let calls := [ApiCall.historyDelete id deleteFile]
  match o with
  | .networkError => ⟨st, calls, false⟩
  | .response _ _ =>
    ⟨{ st with downloads := st.downloads.filter (fun d => !(d.id == id))
               downloadTotal := st.downloadTotal - 1 }, calls, false⟩

/-! ## The expanded search-history row -/

/-- A parsed JSON value (the result of a successful `JSON.parse`). -/
inductive Json where
  | null
  | bool (b : Bool)
  | num (n : Int)
  | str (s : JStr)
  | arr (elems : List Json)
  | obj (fields : List (JStr × Json))

/-- Property access `j[k]` on a parsed value (`none` = `undefined`). -/
def jsonField (j : Json) (k : JStr) : Option Json :=
  match j with
  | .obj fields => (fields.find? (fun p => p.1 == k)).map Prod.snd
  | _ => none

/-- One row of the nested mini-table. -/
structure ExpandedRow where
  file_name : Option Json
  size_str : Option Json
  bot : Option Json
  server : Option Json

/-- The expanded search-history row of `HistoryTab`: rendered only when
this row is the expanded one and `results_json` is truthy (present and
nonempty). `decoded` is the outcome of `JSON.parse(item.results_json)`:
`none` models a parse exception; a non-array value makes the subsequent
`.map` call throw. Neither is guarded in the JSX, so both crash the
render, modelled as `Except.error`. -/
def renderExpandedSearch (item : SearchHistoryItem) (expanded : Option Int)
    (decoded : Option Json) : Except Unit (Option (List ExpandedRow)) :=
  match item.results_json with
  | none => .ok none
  | some s =>
    if expanded = some item.id ∧ s ≠ [] then
      match decoded with
      | none => .error ()
      | some (Json.arr elems) =>
        .ok (some (elems.map fun r =>
          { file_name := jsonField r (ofStr "file_name")
            size_str := jsonField r (ofStr "size_str")
            bot := jsonField r (ofStr "bot")
            server := jsonField r (ofStr "server") }))
      | some _ => .error ()
    else .ok none

/-! ## Sample data for concrete instances -/

def sampleStats : BotStats :=
  { bot_name := ofStr "bot", network := ofStr "net", total_downloads := 1,
    successful_downloads := 1, failed_downloads := 0, total_bytes := 5,
    average_speed := 2, reliability_score := 9 }

def sampleResult : XdccSearchResult :=
  { server := ofStr "irc.foo.net", bot := ofStr "b", pack_number := 1,
    file_size := 10, file_name := ofStr "f", downloads := 0, channel := ofStr "#c" }

def sampleToast : ToastState := { message := [], type := .success, visible := false }

def sampleApp : AppState :=
  { activeTab := .search, searchResults := some [sampleResult], transfers := [],
    stats := [sampleStats], isLoading := false, queueSize := 0, toast := sampleToast }

def sampleNetwork : NetworkConfig :=
  { host := ofStr "irc.foo.net", port := 6697, ssl := true,
    autojoin_channels := [ofStr "#a"], join_delay_secs := 6 }

def sampleConfig : AppConfig :=
  { use_ssl := true, connect_timeout := 15, general_timeout := 120,
    proxy_enabled := false, proxy_url := [], nickname := ofStr "nick",
    username := ofStr "user", realname := ofStr "real", max_retries := 3,
    retry_delay := 30, queue_limit := 2, passive_dcc := false,
    dcc_port_min := 49152, dcc_port_max := 65535, resume_enabled := true,
    enabled_providers := [ofStr "SkullXDCC"], results_per_page := 50,
    search_timeout := 30, networks := [(ofStr "foo", sampleNetwork)] }

def sampleSettingsSt : SettingsState :=
  { settings := some sampleConfig, loading := false, saving := false,
    newNetworkName := ofStr "bar", toast := sampleToast }

def sampleDownloadItem (i : String) : DownloadHistoryItem :=
  { id := ofStr i, file_name := some (ofStr "f.iso"), size := some 7,
    network := ofStr "net", bot := ofStr "b", status := ofStr "completed",
    completed_at := ofStr "2024" }

def sampleHist : HistState :=
  { searches := [], searchPage := 1, searchTotalPages := 1, searchTotal := 0,
    selectedSearches := [], expandedSearch := none,
    downloads := [sampleDownloadItem "x"], downloadPage := 2,
    downloadTotalPages := 2, downloadTotal := 20,
    selectedDownloads := [ofStr "x"], loading := false, toast := sampleToast }

def samplePageBody : DownloadHistoryBody :=
  { items := some [sampleDownloadItem "y"], total := some 20,
    total_pages := some 2, history := none, count := none }

/-! ## C1: poll-cycle failure isolation -/

/-- C1 (amended): in one `fetchUpdates` cycle each of the three slices
depends only on its own fetch outcome: a fetch whose `await`-chain
throws (network error or non-JSON body) leaves its slice at the
pre-cycle value, while any parsed JSON body — whatever the HTTP status,
2xx or not — replaces the slice with the body's field, defaulting to
empty/zero when the field is absent; all other state is untouched (and
`fetchUpdates` is a total function: the cycle never throws outward). -/
theorem fetchUpdates_slice_isolation (st : AppState) (so : FetchOutcome StatsBody)
    (qo : FetchOutcome QueueBody) (tro : FetchOutcome TransfersBody) :
    (fetchUpdates st so qo tro).stats
        = (match awaitJson so with | none => st.stats | some b => b.bots.getD []) ∧
    (fetchUpdates st so qo tro).queueSize
        = (match awaitJson qo with | none => st.queueSize | some b => b.queue_size.getD 0) ∧
    (fetchUpdates st so qo tro).transfers
        = (match awaitJson tro with | none => st.transfers | some b => b.transfers.getD []) ∧
    (fetchUpdates st so qo tro).searchResults = st.searchResults ∧
    (fetchUpdates st so qo tro).isLoading = st.isLoading ∧
    (fetchUpdates st so qo tro).toast = st.toast ∧
    (fetchUpdates st so qo tro).activeTab = st.activeTab := by
  rcases so with _ | ⟨s₁, _ | b₁⟩ <;> rcases qo with _ | ⟨s₂, _ | b₂⟩ <;>
    rcases tro with _ | ⟨s₃, _ | b₃⟩ <;> simp [fetchUpdates, awaitJson]

/-- C1 (counterexample): a non-2xx response whose body is valid JSON
without a `bots` field does not throw, so the stats slice is replaced
with `[]` instead of retaining its pre-cycle value. -/
theorem fetchUpdates_non2xx_clobbers_stats :
    (fetchUpdates sampleApp (.response 500 (some ⟨none⟩))
        (.response 200 (some ⟨some 3⟩)) (.response 200 (some ⟨some []⟩))).stats
      ≠ sampleApp.stats := by decide

/-! ## C2: search failure handling -/

/-- C2 (amended): when the search fetch throws (rejection or non-JSON
body), the result set is left unchanged — it retains its prior value,
it is not emptied — and the failure toast is shown; on success the
result set is replaced by the body's `results`; the loading flag is
cleared on every path, and the handler never throws. -/
theorem handleSearch_failure_behavior (st : AppState) (q : JStr)
    (ps : List JStr) (o : FetchOutcome SearchBody) :
    (handleSearch st q ps o).state.isLoading = false ∧
    (handleSearch st q ps o).state.searchResults
        = (match awaitJson o with | none => st.searchResults | some d => d.results) ∧
    (handleSearch st q ps o).state.toast
        = (match awaitJson o with
           | none => mkToast (ofStr "Search failed") .error
           | some _ => st.toast) ∧
    (handleSearch st q ps o).threw = false := by
  rcases o with _ | ⟨s, _ | b⟩ <;> simp [handleSearch, awaitJson]

/-- C2 (counterexample): with a nonempty prior result set, a failed
search leaves the prior results in place — the result set is not left
empty as the claim states. -/
theorem handleSearch_failure_not_empty :
    ¬ ((handleSearch sampleApp (ofStr "q") [] .networkError).state.searchResults
        = some []) := by decide

/-! ## C3: expanded search-history row decode -/

def malformedItem : SearchHistoryItem :=
  { id := 1, query := ofStr "q", results_count := 2,
    results_json := some (ofStr "\x7b"), searched_at := ofStr "2024" }

def missingItem : SearchHistoryItem :=
  { id := 2, query := ofStr "q2", results_count := 0,
    results_json := none, searched_at := ofStr "2024" }

/-- C3 (code evaluated at the failing input): a row whose
`results_json` is missing indeed does not expand; but a row whose
`results_json` is present and malformed (so that `JSON.parse` throws)
crashes the render, because the decode in the JSX is not guarded —
contradicting the claim that such a row simply does not expand. -/
theorem renderExpandedSearch_crash_on_malformed :
    renderExpandedSearch missingItem (some 2) none = .ok none ∧
    renderExpandedSearch malformedItem (some 1) none = .error () := ⟨rfl, rfl⟩

/-! ## C4: write-operation failure policy -/

/-- C4 (amended): start-download and save-settings failures are caught
and surface a failure toast (save also distinguishes a non-2xx response
via `res.ok`); delete-history failures are caught and only logged — no
notification is shown; cancel and retry are unguarded: a rejected fetch
propagates out of the handler with no notification, while any resolved
response reaches the success toast. -/
theorem write_failure_notification_policy :
    (∀ st r o, (handleDownload st r o).threw = false ∧
       (handleDownload st r o).state.toast
         = (match o with
            | .networkError => mkToast (ofStr "Failed to start download") .error
            | .response _ _ => mkToast (ofStr "Download started") .success)) ∧
    (∀ st o, (saveSettings st o).threw = false ∧
       (saveSettings st o).state.toast
         = (match st.settings with
            | none => st.toast
            | some _ =>
              match o with
              | .networkError => mkToast (ofStr "Failed to save settings") .error
              | .response status _ =>
                if statusOk status then mkToast (ofStr "Settings saved!") .success
                else mkToast (ofStr "Failed to save settings") .error)) ∧
    (∀ st i o, (handleDeleteSearch st i o).threw = false ∧
       (handleDeleteSearch st i o).state.toast = st.toast) ∧
    (∀ st i df o, (handleDeleteDownload st i df o).threw = false ∧
       (handleDeleteDownload st i df o).state.toast = st.toast) ∧
    (∀ st i o, (handleCancel st i o).threw
          = (match o with | .networkError => true | .response _ _ => false) ∧
       (handleCancel st i o).state
          = (match o with
             | .networkError => st
             | .response _ _ =>
               { st with toast := mkToast (ofStr "Transfer cancelled") .success })) ∧
    (∀ st i o, (handleRetry st i o).threw
          = (match o with | .networkError => true | .response _ _ => false) ∧
       (handleRetry st i o).state
          = (match o with
             | .networkError => st
             | .response _ _ =>
               { st with toast := mkToast (ofStr "Retrying transfer...") .success })) := by
  refine ⟨?_, ?_, ?_, ?_, ?_, ?_⟩
  · intro st r o; rcases o with _ | ⟨s, b⟩ <;> simp [handleDownload]
  · intro st o
    rcases hs : st.settings with _ | cfg <;> rcases o with _ | ⟨s, b⟩ <;>
      (simp [saveSettings, hs]; try (split <;> simp))
  · intro st i o; rcases o with _ | ⟨s, b⟩ <;> simp [handleDeleteSearch]
  · intro st i df o; rcases o with _ | ⟨s, b⟩ <;> simp [handleDeleteDownload]
  · intro st i o; rcases o with _ | ⟨s, b⟩ <;> simp [handleCancel]
  · intro st i o; rcases o with _ | ⟨s, b⟩ <;> simp [handleRetry]

/-- C4 (counterexample): cancelling a transfer when the fetch rejects
lets the rejection propagate out of `handleCancel`, and no notification
is ever shown (the toast stays invisible). -/
theorem handleCancel_network_failure_propagates :
    (handleCancel sampleApp (ofStr "abc") .networkError).threw = true ∧
    (handleCancel sampleApp (ofStr "abc") .networkError).state.toast.visible = false := by
  decide

/-! ## C9: updateSetting frame condition -/

/-- C9: `updateSetting` stores the carried value in the named field and
leaves every other field of the document — the `networks` map
included — unchanged. -/
theorem updateSetting_frame (c : AppConfig) (u : SettingUpdate) :
    (updateSetting c u).networks = c.networks ∧
    updatedFieldSet (updateSetting c u) u ∧
    ∀ k : SettingKey, k ≠ keyOf u → fieldEq k (updateSetting c u) c := by
  refine ⟨?_, ?_, ?_⟩
  · cases u <;> rfl
  · cases u <;> rfl
  · intro k hk
    cases u <;> cases k <;> first | rfl | exact absurd rfl hk

/-- C9 (witness): editing the nickname leaves `use_ssl` unchanged. -/
theorem updateSetting_frame_witness :
    fieldEq SettingKey.use_ssl (updateSetting sampleConfig (.nickname (ofStr "n")))
      sampleConfig :=
  (updateSetting_frame sampleConfig (.nickname (ofStr "n"))).2.2
    SettingKey.use_ssl (by decide)

/-! ## C10: download-history fetch frame condition -/

/-- C10: fetching a page of download history replaces the loaded items
and the totals (handling both response shapes) but never touches either
selection set or the search-history slices; in particular — the closed
final conjunct — after a page change the selection can still hold an id
absent from every loaded item. -/
theorem fetchDownloadHistory_preserves_selection :
    (∀ st o,
      (fetchDownloadHistory st o).selectedDownloads = st.selectedDownloads ∧
      (fetchDownloadHistory st o).selectedSearches = st.selectedSearches ∧
      (fetchDownloadHistory st o).searches = st.searches ∧
      (fetchDownloadHistory st o).downloads
        = (match awaitJson o with
           | none => st.downloads
           | some d =>
             match d.items with
             | some items => items
             | none => match d.history with
                       | some hist => hist
                       | none => st.downloads) ∧
      (fetchDownloadHistory st o).downloadTotal
        = (match awaitJson o with
           | none => st.downloadTotal
           | some d =>
             match d.items with
             | some items => jsOrInt d.total (items.length : Int)
             | none => match d.history with
                       | some hist => jsOrInt d.count (hist.length : Int)
                       | none => st.downloadTotal) ∧
      (fetchDownloadHistory st o).downloadTotalPages
        = (match awaitJson o with
           | none => st.downloadTotalPages
           | some d =>
             match d.items with
             | some _ => jsOrInt d.total_pages 1
             | none => match d.history with
                       | some _ => 1
                       | none => st.downloadTotalPages)) ∧
    (fetchDownloadHistory sampleHist (.response 200 (some samplePageBody))).selectedDownloads
        = [ofStr "x"] ∧
    (fetchDownloadHistory sampleHist
        (.response 200 (some samplePageBody))).downloads.all
          (fun d => !(d.id == ofStr "x")) = true := by
  refine ⟨?_, by decide, by decide⟩
  intro st o
  rcases o with _ | ⟨s, _ | d⟩
  · simp [fetchDownloadHistory, awaitJson]
  · simp [fetchDownloadHistory, awaitJson]
  · rcases d with ⟨_ | items, total, pages, _ | hist, cnt⟩ <;>
      simp [fetchDownloadHistory, awaitJson]

/-! ## C5: the algebra of normalizeServer -/

lemma jsCharToLower_idem (c : Nat) :
    jsCharToLower (jsCharToLower c) = jsCharToLower c := by
  unfold jsCharToLower
  by_cases h : 65 ≤ c ∧ c ≤ 90
  · simp only [if_pos h]
    rw [if_neg (by omega)]
  · simp only [if_neg h]

lemma jsToLower_idem (s : JStr) : jsToLower (jsToLower s) = jsToLower s := by
  unfold jsToLower
  rw [List.map_map]
  apply List.map_congr_left
  intro c _
  exact jsCharToLower_idem c

lemma ircPre_eq : ircPre = [105, 114, 99, 46] := by decide

lemma startsWith_iff (p s : JStr) : startsWith p s = true ↔ s.take p.length = p := by
  simp [startsWith]

lemma startsWith_ircPre_iff (s : JStr) :
    startsWith ircPre s = true ↔ ∃ t, s = 105 :: 114 :: 99 :: 46 :: t := by
  rw [startsWith_iff, ircPre_eq]
  constructor
  · intro h
    refine ⟨s.drop 4, ?_⟩
    conv_lhs => rw [← List.take_append_drop 4 s]
    rw [show List.length ([105, 114, 99, 46] : JStr) = 4 from rfl] at h
    rw [h]
    rfl
  · rintro ⟨t, rfl⟩
    rfl

lemma startsWith_ircirc_iff (s : JStr) :
    startsWith (ircPre ++ ircPre) s = true ↔
      ∃ t, s = 105 :: 114 :: 99 :: 46 :: 105 :: 114 :: 99 :: 46 :: t := by
  rw [startsWith_iff, ircPre_eq]
  constructor
  · intro h
    refine ⟨s.drop 8, ?_⟩
    conv_lhs => rw [← List.take_append_drop 8 s]
    rw [show List.length (([105, 114, 99, 46] ++ [105, 114, 99, 46] : JStr)) = 8 from rfl] at h
    rw [h]
    rfl
  · rintro ⟨t, rfl⟩
    rfl

lemma stripIrcPre_cons (t : JStr) :
    stripIrcPre (105 :: 114 :: 99 :: 46 :: t) = t := by
  have h : startsWith ircPre (105 :: 114 :: 99 :: 46 :: t) = true :=
    (startsWith_ircPre_iff _).mpr ⟨t, rfl⟩
  simp [stripIrcPre, h]

lemma stripIrcPre_of_not {s : JStr} (h : ¬ startsWith ircPre s = true) :
    stripIrcPre s = s := by
  simp [stripIrcPre, h]

lemma jsToLower_irc_cons (t : JStr) :
    jsToLower (105 :: 114 :: 99 :: 46 :: t) = 105 :: 114 :: 99 :: 46 :: jsToLower t := by
  simp [jsToLower, jsCharToLower]

/-- C5 (counterexample): `normalizeServer` strips only one `irc.`
prefix per application, so it is not idempotent: on `"irc.irc.x"` a
second application strips again, refuting the claim's idempotence
conjunct at this input. -/
theorem normalizeServer_not_idempotent :
    ¬ (normalizeServer (normalizeServer (ofStr "irc.irc.x"))
        = normalizeServer (ofStr "irc.irc.x")) := by decide

/-- C5 (amended): prepending `"irc."` is invisible to `normalizeServer`
provided the *lower-cased* input does not already start with `irc.`
(the claim's condition on the raw string fails on inputs like
`"IRC.foo"`), and `normalizeServer ∘ normalizeServer = normalizeServer`
holds exactly under the further proviso that the lower-cased input does
not start with the doubled prefix `irc.irc.`. -/
theorem normalizeServer_algebra (s : JStr) :
    (¬ startsWith ircPre (jsToLower s) = true →
        normalizeServer (ircPre ++ s) = normalizeServer s) ∧
    (¬ startsWith (ircPre ++ ircPre) (jsToLower s) = true →
        normalizeServer (normalizeServer s) = normalizeServer s) := by
  constructor
  · intro h
    unfold normalizeServer
    have hlower : jsToLower (ircPre ++ s) = 105 :: 114 :: 99 :: 46 :: jsToLower s := by
      rw [ircPre_eq]
      exact jsToLower_irc_cons s
    rw [hlower, stripIrcPre_cons, stripIrcPre_of_not h]
  · intro h
    by_cases hp : startsWith ircPre (jsToLower s) = true
    · obtain ⟨t, ht⟩ := (startsWith_ircPre_iff _).mp hp
      have hlow_t : jsToLower t = t := by
        have hidem := jsToLower_idem s
        rw [ht, jsToLower_irc_cons] at hidem
        simpa using hidem
      have hnot_t : ¬ startsWith ircPre t = true := by
        intro hc
        obtain ⟨u, hu⟩ := (startsWith_ircPre_iff _).mp hc
        apply h
        rw [startsWith_ircirc_iff]
        exact ⟨u, by rw [ht, hu]⟩
      show stripIrcPre (jsToLower (stripIrcPre (jsToLower s))) = stripIrcPre (jsToLower s)
      rw [ht, stripIrcPre_cons, hlow_t, stripIrcPre_of_not hnot_t]
    · show stripIrcPre (jsToLower (stripIrcPre (jsToLower s))) = stripIrcPre (jsToLower s)
      rw [stripIrcPre_of_not hp, jsToLower_idem, stripIrcPre_of_not hp]

/-- C5 (witness for the amended claim): at `s = "foo.net"` both amended
conjuncts apply: prepending `irc.` is invisible and normalization is
idempotent there. -/
theorem normalizeServer_algebra_witness :
    normalizeServer (ircPre ++ ofStr "foo.net") = normalizeServer (ofStr "foo.net") ∧
    normalizeServer (normalizeServer (ofStr "foo.net")) = normalizeServer (ofStr "foo.net") :=
  ⟨(normalizeServer_algebra (ofStr "foo.net")).1 (by decide),
   (normalizeServer_algebra (ofStr "foo.net")).2 (by decide)⟩

/-! ## C8: the autojoin blur-commit parser -/

lemma dropWhile_dropWhile (p : Nat → Bool) (l : JStr) :
    (l.dropWhile p).dropWhile p = l.dropWhile p := by
  induction l with
  | nil => rfl
  | cons a t ih => by_cases h : p a = true <;> simp [List.dropWhile_cons, h, ih]

lemma dropWhile_of_append_self (p : Nat → Bool) (t w : JStr)
    (h : List.dropWhile p (t ++ w) = t ++ w) : List.dropWhile p t = t := by
  cases t with
  | nil => rfl
  | cons a t' =>
    rw [List.cons_append, List.dropWhile_cons] at h
    by_cases hp : p a = true
    · exfalso
      rw [if_pos hp] at h
      have hlen := congrArg List.length h
      have hle : (List.dropWhile p (t' ++ w)).length ≤ (t' ++ w).length :=
        (List.dropWhile_sublist p).length_le
      simp only [List.length_cons, List.length_append] at hlen hle
      omega
    · rw [List.dropWhile_cons, if_neg hp]

lemma jsTrim_idem (s : JStr) : jsTrim (jsTrim s) = jsTrim s := by
  have hdrop_u : (s.dropWhile isJsWs).dropWhile isJsWs = s.dropWhile isJsWs :=
    dropWhile_dropWhile _ _
  have hsplit : s.dropWhile isJsWs
      = ((s.dropWhile isJsWs).reverse.dropWhile isJsWs).reverse
        ++ ((s.dropWhile isJsWs).reverse.takeWhile isJsWs).reverse := by
    conv_lhs =>
      rw [← List.reverse_reverse (s.dropWhile isJsWs),
        ← List.takeWhile_append_dropWhile isJsWs (s.dropWhile isJsWs).reverse]
    rw [List.reverse_append]
  have h1 : (((s.dropWhile isJsWs).reverse.dropWhile isJsWs).reverse).dropWhile isJsWs
      = ((s.dropWhile isJsWs).reverse.dropWhile isJsWs).reverse := by
    apply dropWhile_of_append_self isJsWs _ ((s.dropWhile isJsWs).reverse.takeWhile isJsWs).reverse
    rw [← hsplit]
    exact hdrop_u
  have h2 : ((s.dropWhile isJsWs).reverse.dropWhile isJsWs).dropWhile isJsWs
      = (s.dropWhile isJsWs).reverse.dropWhile isJsWs :=
    dropWhile_dropWhile _ _
  show (((jsTrim s).dropWhile isJsWs).reverse.dropWhile isJsWs).reverse = jsTrim s
  rw [show jsTrim s = ((s.dropWhile isJsWs).reverse.dropWhile isJsWs).reverse from rfl]
  rw [h1, List.reverse_reverse, h2]

/-- C8: committing the autojoin draft on blur parses it by splitting on
commas, trimming each segment, and dropping empty segments while
preserving order: the committed list is an order-preserving sublist of
the trimmed segments, every committed segment is nonempty and already
trimmed, and the draft `"#a, #b ,  #c"` yields exactly
`["#a", "#b", "#c"]`. -/
theorem parseAutojoin_spec :
    parseAutojoin (ofStr "#a, #b ,  #c") = [ofStr "#a", ofStr "#b", ofStr "#c"] ∧
    (∀ d c, c ∈ parseAutojoin d → 0 < c.length ∧ jsTrim c = c) ∧
    (∀ d, (parseAutojoin d).Sublist ((splitOnComma d).map jsTrim)) := by
  refine ⟨by decide, ?_, ?_⟩
  · intro d c hc
    refine ⟨by simpa using List.of_mem_filter hc, ?_⟩
    rcases List.mem_map.mp (List.mem_of_mem_filter hc) with ⟨x, _, rfl⟩
    exact jsTrim_idem x
  · intro d
    exact List.filter_sublist _

/-- C8 (witness): the first committed segment of the example draft is
nonempty and trimmed. -/
theorem parseAutojoin_spec_witness :
    0 < (ofStr "#a").length ∧ jsTrim (ofStr "#a") = ofStr "#a" :=
  parseAutojoin_spec.2.1 (ofStr "#a, #b ,  #c") (ofStr "#a") (by decide)

/-! ## C6: commit granularity of configuration edits -/

/-- The document with its networks record replaced. -/
def withNetworks (cfg : AppConfig) (m : List (JStr × NetworkConfig)) : AppConfig :=
  { cfg with networks := m }

/-- C6 (counterexample): editing a field of an existing network via
`updateNetwork` changes the in-memory document but issues no HTTP call
at all — refuting the claim that updating an individual network issues
its own immediate PUT. -/
theorem updateNetwork_issues_no_call :
    (updateNetwork sampleSettingsSt (ofStr "foo") (.port 6667)).calls = [] ∧
    (updateNetwork sampleSettingsSt (ofStr "foo") (.port 6667)).state.settings
      ≠ sampleSettingsSt.settings := by decide

/-- C6 (amended): adding a network issues exactly one immediate PUT
keyed by the raw network name (and on a resolved response also inserts
the definition into the in-memory document); deleting a network issues
exactly one immediate DELETE keyed by the name (and on a resolved
response removes the in-memory entry); but a per-field update of a
network is an in-memory rewrite only — no call — exactly like every
scalar edit via `updateSetting`, while the explicit save PUTs the whole
document. -/
theorem network_calls_granularity :
    (∀ st o, (addNetwork st o).calls
        = (if jsTrim st.newNetworkName = [] then []
           else match st.settings with
                | none => []
                | some _ =>
                  [ApiCall.networkPut st.newNetworkName
                    (defaultNetworkFor st.newNetworkName)])) ∧
    (∀ st s b cfg, ¬ jsTrim st.newNetworkName = [] → st.settings = some cfg →
        (addNetwork st (.response s b)).state.settings
          = some (withNetworks cfg
              (setKey cfg.networks st.newNetworkName
                (defaultNetworkFor st.newNetworkName)))) ∧
    (∀ st name o, (deleteNetwork st name o).calls
        = (match st.settings with
           | none => []
           | some _ => [ApiCall.networkDelete name])) ∧
    (∀ st name s b cfg, st.settings = some cfg →
        (deleteNetwork st name (.response s b)).state.settings
          = some (withNetworks cfg (removeKey cfg.networks name))) ∧
    (∀ st name u, (updateNetwork st name u).calls = []) ∧
    (∀ st u, (updateSettingAction st u).calls = []) ∧
    (∀ st o, (saveSettings st o).calls
        = (match st.settings with
           | none => []
           | some cfg => [ApiCall.settingsPut cfg])) := by
  refine ⟨?_, ?_, ?_, ?_, ?_, ?_, ?_⟩
  · intro st o
    by_cases h : jsTrim st.newNetworkName = [] <;>
      rcases hs : st.settings with _ | cfg <;>
        rcases o with _ | ⟨s, b⟩ <;> simp [addNetwork, h, hs]
  · intro st s b cfg h hcfg
    simp [addNetwork, h, hcfg, withNetworks]
  · intro st name o
    rcases hs : st.settings with _ | cfg <;>
      rcases o with _ | ⟨s, b⟩ <;> simp [deleteNetwork, hs]
  · intro st name s b cfg hcfg
    simp [deleteNetwork, hcfg, withNetworks]
  · intro st name u
    rcases hs : st.settings with _ | cfg <;> simp [updateNetwork, hs]
  · intro st u
    rcases hs : st.settings with _ | cfg <;> simp [updateSettingAction, hs]
  · intro st o
    rcases hs : st.settings with _ | cfg <;>
      rcases o with _ | ⟨s, b⟩ <;>
        (simp [saveSettings, hs]; try (split <;> simp))

/-- C6 (witness): adding the pending network `"bar"` on a resolved
response inserts its default definition into the in-memory document. -/
theorem network_calls_granularity_witness :
    (addNetwork sampleSettingsSt (.response 200 none)).state.settings
      = some (withNetworks sampleConfig
          (setKey sampleConfig.networks (ofStr "bar") (defaultNetworkFor (ofStr "bar")))) :=
  network_calls_granularity.2.1 sampleSettingsSt 200 none sampleConfig (by decide) rfl

/-! ## C7: the server facet dedupes on the normalized key -/

lemma seenVal_insertSeen (seen : List (JStr × JStr)) (r : XdccSearchResult) (k : JStr) :
    seenVal (insertSeen seen r) k
      = (seenVal seen k).or
          (if normalizeServer r.server == k then some r.server else none) := by
  unfold insertSeen
  by_cases hany : seen.any (fun p => p.1 == normalizeServer r.server) = true
  · rw [if_pos hany]
    by_cases hk : (normalizeServer r.server == k) = true
    · have hkk : normalizeServer r.server = k := by simpa using hk
      obtain ⟨p, hp, hpk⟩ := List.any_eq_true.mp hany
      have hsome : (seen.find? (fun p => p.1 == k)).isSome := by
        rw [List.find?_isSome]
        exact ⟨p, hp, by rw [← hkk]; exact hpk⟩
      obtain ⟨q, hq⟩ := Option.isSome_iff_exists.mp hsome
      simp [seenVal, hq, hk]
    · simp [hk, Option.or_none]
  · rw [if_neg hany]
    unfold seenVal
    rw [List.find?_append]
    by_cases hk : (normalizeServer r.server == k) = true
    · cases hfind : seen.find? (fun p => p.1 == k) <;> simp [hfind, hk]
    · cases hfind : seen.find? (fun p => p.1 == k) <;> simp [hfind, hk]

lemma seenVal_foldl (results : List XdccSearchResult) :
    ∀ (acc : List (JStr × JStr)) (k : JStr),
      seenVal (results.foldl insertSeen acc) k
        = (seenVal acc k).or (firstRawFor results k) := by
  induction results with
  | nil =>
    intro acc k
    simp [firstRawFor, Option.or_none]
  | cons r rest ih =>
    intro acc k
    rw [List.foldl_cons, ih, seenVal_insertSeen, Option.or_assoc]
    congr 1
    unfold firstRawFor
    rw [List.find?_cons]
    by_cases h : (normalizeServer r.server == k) = true
    · simp [h]
    · simp [h]

lemma seenVal_buildSeen (results : List XdccSearchResult) (k : JStr) :
    seenVal (buildSeen results) k = firstRawFor results k := by
  have h := seenVal_foldl results [] k
  simpa [buildSeen, seenVal] using h

lemma keys_nodup_insertSeen (seen : List (JStr × JStr)) (r : XdccSearchResult)
    (h : (seen.map Prod.fst).Nodup) : ((insertSeen seen r).map Prod.fst).Nodup := by
  unfold insertSeen
  by_cases hany : seen.any (fun p => p.1 == normalizeServer r.server) = true
  · simpa [hany] using h
  · rw [if_neg hany, List.map_append, List.nodup_append]
    refine ⟨h, by simp, ?_⟩
    intro a ha hb
    simp only [List.map_cons, List.map_nil, List.mem_singleton] at hb
    subst hb
    obtain ⟨p, hp, hpa⟩ := List.mem_map.mp ha
    have hfalse : seen.any (fun p => p.1 == normalizeServer r.server) = false :=
      Bool.eq_false_iff.mpr hany
    have hnot := List.any_eq_false.mp hfalse p hp
    exact hnot (by simp [hpa])

lemma keys_nodup_buildSeen (results : List XdccSearchResult) :
    ((buildSeen results).map Prod.fst).Nodup := by
  have main : ∀ (acc : List (JStr × JStr)), (acc.map Prod.fst).Nodup →
      ((results.foldl insertSeen acc).map Prod.fst).Nodup := by
    induction results with
    | nil => intro acc h; exact h
    | cons r rest ih =>
      intro acc h
      rw [List.foldl_cons]
      exact ih _ (keys_nodup_insertSeen acc r h)
  exact main [] (by simp)

lemma norm_inv_buildSeen (results : List XdccSearchResult) :
    ∀ p ∈ buildSeen results, normalizeServer p.2 = p.1 := by
  have main : ∀ (acc : List (JStr × JStr)), (∀ p ∈ acc, normalizeServer p.2 = p.1) →
      ∀ p ∈ results.foldl insertSeen acc, normalizeServer p.2 = p.1 := by
    induction results with
    | nil => intro acc h; exact h
    | cons r rest ih =>
      intro acc h
      rw [List.foldl_cons]
      apply ih
      intro p hp
      unfold insertSeen at hp
      by_cases hany : acc.any (fun q => q.1 == normalizeServer r.server) = true
      · rw [if_pos hany] at hp
        exact h p hp
      · rw [if_neg hany] at hp
        rcases List.mem_append.mp hp with h1 | h2
        · exact h p h1
        · simp only [List.mem_singleton] at h2
          subst h2
          rfl
  exact main [] (by simp)

lemma countP_key_of_nodup (k : JStr) (seen : List (JStr × JStr))
    (hn : (seen.map Prod.fst).Nodup) :
    seen.countP (fun p => p.1 == k)
      = if (seen.find? (fun p => p.1 == k)).isSome then 1 else 0 := by
  induction seen with
  | nil => rfl
  | cons q rest ih =>
    rw [List.map_cons, List.nodup_cons] at hn
    rw [List.countP_cons, List.find?_cons]
    by_cases h : (q.1 == k) = true
    · have hq1 : q.1 = k := by simpa using h
      have hz : rest.countP (fun p => p.1 == k) = 0 := by
        rw [List.countP_eq_zero]
        intro p hp hpk
        apply hn.1
        have hpk' : p.1 = k := by simpa using hpk
        rw [hq1]
        exact List.mem_map.mpr ⟨p, hp, hpk'⟩
      simp [h, hz]
    · have hf : (q.1 == k) = false := Bool.eq_false_iff.mpr h
      rw [hf]
      simp [ih hn.2]

lemma find?_eq_of_mem_nodup (seen : List (JStr × JStr)) (k v : JStr)
    (hn : (seen.map Prod.fst).Nodup) (hm : (k, v) ∈ seen) :
    seen.find? (fun p => p.1 == k) = some (k, v) := by
  induction seen with
  | nil => cases hm
  | cons q rest ih =>
    rw [List.map_cons, List.nodup_cons] at hn
    rw [List.find?_cons]
    rcases List.mem_cons.mp hm with hq | hm'
    · subst hq
      simp
    · by_cases h : (q.1 == k) = true
      · exfalso
        have hq1 : q.1 = k := by simpa using h
        apply hn.1
        rw [hq1]
        exact List.mem_map.mpr ⟨(k, v), hm', rfl⟩
      · have hf : (q.1 == k) = false := Bool.eq_false_iff.mpr h
        simp only [hf]
        exact ih hn.2 hm'

/-- C7: whenever two or more results normalize to the same server key,
the server facet contains exactly one entry for that key, and that
entry is the raw server string of the first result (in input order)
whose server normalizes to the key. -/
theorem servers_facet_dedup (results : List XdccSearchResult) (k : JStr)
    (h : 2 ≤ results.countP (fun r => normalizeServer r.server == k)) :
    (servers results).countP (fun v => normalizeServer v == k) = 1 ∧
    ∀ v ∈ servers results, normalizeServer v = k → some v = firstRawFor results k := by
  have hperm : (servers results).Perm ((buildSeen results).map Prod.snd) :=
    List.perm_insertionSort _ _
  have hval := seenVal_buildSeen results k
  have hnod := keys_nodup_buildSeen results
  have hinv := norm_inv_buildSeen results
  have hex : ∃ r ∈ results, (normalizeServer r.server == k) = true :=
    List.countP_pos_iff.mp (by omega)
  have hfsome : ((buildSeen results).find? (fun p => p.1 == k)).isSome := by
    rw [List.find?_isSome]
    obtain ⟨r, hr, hrk⟩ := hex
    have : (firstRawFor results k).isSome := by
      unfold firstRawFor
      cases hf : results.find? (fun r => normalizeServer r.server == k) with
      | none => exact absurd hrk (List.find?_eq_none.mp hf r hr)
      | some x => simp [hf]
    rw [← hval] at this
    unfold seenVal at this
    obtain ⟨p, hp⟩ : ∃ p, (buildSeen results).find? (fun p => p.1 == k) = some p := by
      cases hf : (buildSeen results).find? (fun p => p.1 == k) with
      | none => rw [hf] at this; simp at this
      | some p => exact ⟨p, rfl⟩
    have hmem := List.mem_of_find?_eq_some hp
    have hpk := List.find?_some hp
    exact ⟨p, hmem, hpk⟩
  constructor
  · rw [hperm.countP_eq, List.countP_map]
    have hcong : (buildSeen results).countP ((fun v => normalizeServer v == k) ∘ Prod.snd)
        = (buildSeen results).countP (fun p => p.1 == k) := by
      apply List.countP_congr
      intro p hp
      simp [Function.comp, hinv p hp]
    rw [hcong, countP_key_of_nodup k _ hnod, if_pos hfsome]
  · intro v hv hnk
    have hvmem : v ∈ (buildSeen results).map Prod.snd := hperm.mem_iff.mp hv
    obtain ⟨p, hp, hpv⟩ := List.mem_map.mp hvmem
    have hp1 : p.1 = k := by
      rw [← hinv p hp, hpv, hnk]
    have hkv : (k, v) ∈ buildSeen results := by
      rw [← hp1, ← hpv, Prod.mk.eta]
      exact hp
    have hfind := find?_eq_of_mem_nodup (buildSeen results) k v hnod hkv
    rw [← hval]
    unfold seenVal
    rw [hfind]
    rfl

/-- A result set with the duplicate servers of the spec's example. -/
def dupResults : List XdccSearchResult :=
  [{ sampleResult with server := ofStr "irc.foo.net" },
   { sampleResult with server := ofStr "foo.net" }]

/-- C7 (witness): with the duplicate servers `"irc.foo.net"` and
`"foo.net"` the facet holds exactly one entry for the shared key. -/
theorem servers_facet_dedup_witness :
    2 ≤ dupResults.countP (fun r => normalizeServer r.server == ofStr "foo.net") ∧
    (servers dupResults).countP (fun v => normalizeServer v == ofStr "foo.net") = 1 :=
  ⟨by decide, (servers_facet_dedup dupResults (ofStr "foo.net") (by decide)).1⟩

end Botarr
